import Mathlib

/-!
Verification development for the family-wealth data-hub cache and
access-coordination layer.

The Lean definitions below are a shallow embedding of the Python sources:
  * `software-modules/data-hub/storage/cache_db.py`  (`CacheDatabase`)
  * `software-modules/data-hub/core/cache_manager.py` (`CacheManager`)
  * `software-modules/data-hub/core/data_source_manager.py` (`DataSourceManager`)
  * `software-modules/data-hub/core/data_access_service.py` (`DataAccessService`)

Modelling conventions:
  * Python ISO-8601 timestamps are modelled as natural numbers (`Time`);
    `datetime.now() > expire_time` becomes `now > expiresAt`.
  * Python dictionaries are association lists that keep insertion order,
    mirroring CPython dict semantics (`dictLookup` / `dictSet` / `dictErase`).
  * External library functions (`pickle.dumps`, `pickle.loads`, `json.dumps`,
    `json.loads`, `hashlib.md5`, the mock data generator which calls
    `random`) are parameters of the definitions that call them; a raised
    exception is modelled as `Option.none`.
  * A Python function that returns `None` on a miss and the stored payload on
    a hit is modelled as returning `Value`, with `Value.none` standing for
    Python `None` (so a stored `None` payload is indistinguishable from a
    miss, exactly as in the source).
-/

namespace FamilyWealth

/-- Simulated clock value (stands for an ISO-8601 timestamp). -/
abbrev Time := Nat

/-- Serialized payload (stands for Python `bytes`). -/
abbrev Bytes := String

/-- A Python value as it travels through the cache layer. -/
inductive Value where
  | none
  | bool (b : Bool)
  | int (n : Int)
  | str (s : String)
  | list (l : List Value)
  | dict (l : List (String × Value))

/-- Python truthiness (`if cached_data:`). -/
def Value.truthy : Value → Bool
  | .none => false
  | .bool b => b
  | .int n => n != 0
  | .str s => !s.isEmpty
  | .list l => !l.isEmpty
  | .dict l => !l.isEmpty

/-- Lookup in a Python dict modelled as an insertion-ordered association
list (`d[k]` / `k in d`). -/
def dictLookup : List (String × α) → String → Option α
  | [], _ => Option.none
  | (k', v) :: rest, k => if k' = k then Option.some v else dictLookup rest k

/-- `d[k] = v` on a Python dict: replace the binding in place when the key is
present, otherwise append a new binding at the end. -/
def dictSet : List (String × α) → String → α → List (String × α)
  | [], k, v => [(k, v)]
  | (k', v') :: rest, k, v =>
      if k' = k then (k, v) :: rest else (k', v') :: dictSet rest k v

/-- `del d[k]` on a Python dict (keys of a dict are unique, so removing every
binding of `k` is removing its one binding). -/
def dictErase (m : List (String × α)) (k : String) : List (String × α) :=
  m.filter (fun p => p.1 ≠ k)

/-- `access_type` column of the `cache_access_log` table. -/
inductive AccessType where
  | hit
  | miss
  | set
  | delete
  | expire
deriving DecidableEq, Repr

/-- A row of the `cache_entries` table (`cache_db.py`, `_initialize_schema`). -/
structure DiskEntry where
  data : Bytes
  expires_at : Time
  created_at : Time
  accessed_at : Time
  access_count : Nat
  data_size : Nat
  source_id : Option String
  cache_type : String
deriving DecidableEq, Repr

/-- The persistent state of `CacheDatabase`: the `cache_entries` table keyed
by `cache_key` and the append-only `cache_access_log` table. -/
structure CacheDb where
  entries : List (String × DiskEntry)
  accessLog : List (String × AccessType)
deriving DecidableEq, Repr

/-- `CacheDatabase._log_cache_access`: append one access-log row. -/
def CacheDb.logAccess (db : CacheDb) (k : String) (ty : AccessType) : CacheDb :=
  { db with accessLog := db.accessLog ++ [(k, ty)] }

/-- `CacheDatabase.get_cached_data`: when the row is absent, log `miss` and
return `None`; when it is present, bump `accessed_at`/`access_count`, log
`hit`, and return the row as fetched (before the bump) — expired rows are
returned like any other. -/
def CacheDb.get_cached_data (db : CacheDb) (k : String) (now : Time) :
    Option DiskEntry × CacheDb :=
  match dictLookup db.entries k with
  | Option.none => (Option.none, db.logAccess k .miss)
  | Option.some e =>
      let e' := { e with accessed_at := now, access_count := e.access_count + 1 }
      let db' := { db with entries := dictSet db.entries k e' }
      (Option.some e, db'.logAccess k .hit)

/-- `CacheDatabase.set_cached_data`: `INSERT OR REPLACE` of a fresh row
(`access_count = 0`, `created_at = accessed_at = now`), then log `set`.
Returns `True`. -/
def CacheDb.set_cached_data (db : CacheDb) (k : String) (data : Bytes)
    (expires_at : Time) (data_size : Nat) (source_id : Option String)
    (cache_type : String) (now : Time) : Bool × CacheDb :=
  let e : DiskEntry :=
    { data := data, expires_at := expires_at, created_at := now,
      accessed_at := now, access_count := 0, data_size := data_size,
      source_id := source_id, cache_type := cache_type }
  (true, ({ db with entries := dictSet db.entries k e }).logAccess k .set)

/-- `CacheDatabase.delete_cached_data`: `DELETE WHERE cache_key = ?`, log
`delete`, and return `cursor.rowcount > 0` (whether a row was removed). -/
def CacheDb.delete_cached_data (db : CacheDb) (k : String) : Bool × CacheDb :=
  let present := (dictLookup db.entries k).isSome
  let db' := { db with entries := dictErase db.entries k }
  (present, db'.logAccess k .delete)

/-- One entry of `CacheManager._memory_cache` (volatile tier). -/
structure MemEntry where
  data : Value
  expires_at : Time
  cached_at : Time

/-- The state of a `CacheManager`: the in-memory cache (a Python dict, so
insertion-ordered), its size bound `_memory_cache_size`, and the attached
`CacheDatabase`. -/
structure CoordSt where
  memory : List (String × MemEntry)
  capacity : Nat
  db : CacheDb

/-- `CacheManager._is_expired`: `datetime.now() > expire_time` (the
string-parse failure branch cannot arise in the model, where timestamps are
already numbers). -/
def isExpired (now expires_at : Time) : Bool :=
  decide (expires_at < now)

/-- `CacheManager._update_memory_cache`: when the dict has reached
`_memory_cache_size`, delete the first-inserted key (`next(iter(dict))`),
then bind `cache_key` to a fresh entry. -/
def updateMemoryCache (s : CoordSt) (k : String) (v : Value)
    (expires_at : Time) (now : Time) : CoordSt :=
  let m :=
    if s.capacity ≤ s.memory.length then
      match s.memory with
      | [] => []
      | (oldest, _) :: _ => dictErase s.memory oldest
    else s.memory
  { s with memory := dictSet m k ⟨v, expires_at, now⟩ }

/-- Second half of `CacheManager.get_cached_data`: the disk-cache check.
On a fresh (non-expired) row, deserialize with `pickle.loads`, falling back
to `json.loads` (a failure of both propagates to the outer handler, which
returns `None` — state changes made so far are kept), repopulate the memory
cache and return the data.  Otherwise return `None`. -/
def coordGetDisk (pickle_loads json_loads : Bytes → Option Value)
    (s : CoordSt) (k : String) (now : Time) : Value × CoordSt :=
  let (disk_data, db') := s.db.get_cached_data k now
  let s := { s with db := db' }
  match disk_data with
  | Option.some d =>
      if isExpired now d.expires_at then (Value.none, s)
      else
        match pickle_loads d.data with
        | Option.some data => (data, updateMemoryCache s k data d.expires_at now)
        | Option.none =>
            match json_loads d.data with
            | Option.some data => (data, updateMemoryCache s k data d.expires_at now)
            | Option.none => (Value.none, s)
  | Option.none => (Value.none, s)

/-- `CacheManager.get_cached_data`: memory cache first (a live hit returns
immediately; an expired entry is deleted), then the disk cache.  A miss is
the Python value `None` (`Value.none`). -/
def coordGet (pickle_loads json_loads : Bytes → Option Value)
    (s : CoordSt) (k : String) (now : Time) : Value × CoordSt :=
  match dictLookup s.memory k with
  | Option.some cached_item =>
      if isExpired now cached_item.expires_at then
        coordGetDisk pickle_loads json_loads
          { s with memory := dictErase s.memory k } k now
      else (cached_item.data, s)
  | Option.none => coordGetDisk pickle_loads json_loads s k now

/-- `CacheManager.set_cached_data`: compute `expires_at = now + ttl`, update
the memory cache first, then serialize with `pickle.dumps`, falling back to
`json.dumps`; if both fail the exception reaches the outer handler and the
operation returns `False` (with the memory cache already updated).  On
success, write to the disk cache and return its result. -/
def coordSet (pickle_dumps json_dumps : Value → Option Bytes)
    (s : CoordSt) (k : String) (v : Value) (ttl : Nat) (now : Time) :
    Bool × CoordSt :=
  let expires_at := now + ttl
  let s := updateMemoryCache s k v expires_at now
  let write := fun (b : Bytes) =>
    let (ok, db') := s.db.set_cached_data k b expires_at b.length
      Option.none "general" now
    (ok, { s with db := db' })
  match pickle_dumps v with
  | Option.some b => write b
  | Option.none =>
      match json_dumps v with
      | Option.some b => write b
      | Option.none => (false, s)

/-- `CacheManager.invalidate_cache`: delete from the memory cache when
present, then delete from the disk cache and return the disk result. -/
def coordInvalidate (s : CoordSt) (k : String) : Bool × CoordSt :=
  let s :=
    if (dictLookup s.memory k).isSome then
      { s with memory := dictErase s.memory k }
    else s
  let (ok, db') := s.db.delete_cached_data k
  (ok, { s with db := db' })

/-- `CacheManager.batch_get_cached_data`: sequential gets, keeping the keys
whose result `is not None`. -/
def batchGetCachedData (pickle_loads json_loads : Bytes → Option Value)
    (s : CoordSt) (keys : List String) (now : Time) :
    List (String × Value) × CoordSt :=
  keys.foldl
    (fun acc k =>
      let (data, s') := coordGet pickle_loads json_loads acc.2 k now
      (match data with
       | Value.none => acc.1
       | _ => acc.1 ++ [(k, data)], s'))
    ([], s)

/-- `DataSourceType` enum (`data_source_manager.py`). -/
inductive DataSourceType where
  | economic_indicator
  | etf_data
  | news_source
  | stock_price
  | financial_statement
  | commodity_price
  | currency_rate
  | bond_yield
deriving DecidableEq, Repr

/-- `DataSourceCategory` enum (`data_source_manager.py`). -/
inductive DataSourceCategory where
  | government
  | financial
  | media
  | commercial
  | exchange
deriving DecidableEq, Repr

/-- `DataSourceConfig` (`data_source_manager.py`).  `status` starts as
`"unknown"`, `enabled` defaults to `True`. -/
structure DataSourceConfig where
  source_id : String
  name : String
  source_type : DataSourceType
  category : DataSourceCategory
  url : String
  api_key : Option String
  frequency : String
  enabled : Bool
  last_updated : Option Time
  status : String
  error_count : Nat
deriving DecidableEq, Repr

/-- The state of a `DataSourceManager`: its `data_sources` dict, keyed by
`source_id`. -/
structure SourceMgr where
  data_sources : List (String × DataSourceConfig)
deriving DecidableEq, Repr

/-- `DataSourceManager.get_active_sources`: the sources whose `enabled` flag
is set (`[source for source in self.data_sources.values() if source.enabled]`). -/
def get_active_sources (mgr : SourceMgr) : List DataSourceConfig :=
  (mgr.data_sources.map Prod.snd).filter (fun source => source.enabled)

/-- `'|'.join(...)` as used by `DataAccessService._generate_cache_key`. -/
def joinPipe : List String → String
  | [] => ""
  | [x] => x
  | x :: xs => x ++ "|" ++ joinPipe xs

/-- `DataAccessService._generate_cache_key`:
`'|'.join(str(arg) for arg in args if arg is not None)`.  The arguments the
service passes are strings or `None`, so `str(arg)` is the string itself and
a `None` argument is dropped. -/
def dasGenerateCacheKey (args : List (Option String)) : String :=
  joinPipe (args.filterMap id)

/-- Canonical order on keyword items: Python `sorted` compares the
`(key, value)` tuples, which on a dict (whose keys are distinct) orders by
key. -/
def kwLe (a b : String × Value) : Prop := a.1 ≤ b.1

instance : DecidableRel kwLe := fun a b => inferInstanceAs (Decidable (a.1 ≤ b.1))

instance : IsTotal (String × Value) kwLe := ⟨fun a b => le_total a.1 b.1⟩

instance : IsTrans (String × Value) kwLe := ⟨fun _ _ _ h h' => le_trans h h'⟩

/-- `CacheManager._generate_cache_key`:
`hashlib.md5((str(args) + str(sorted(kwargs.items()))).encode()).hexdigest()`.
The external `str` renderings and the MD5 digest are parameters. -/
def cmGenerateCacheKey (md5_hexdigest : String → String)
    (str_of_args : List Value → String)
    (str_of_items : List (String × Value) → String)
    (args : List Value) (kwargs : List (String × Value)) : String :=
  md5_hexdigest (str_of_args args ++ str_of_items (kwargs.insertionSort kwLe))

/-- Result dictionary returned by `DataAccessService` operations and by
`_fetch_from_source` (`{'success': ..., 'data'/'error': ..., 'source': ...,
'cached_at'/'fetched_at': ...}`). -/
structure SvcResult where
  success : Bool
  data : Value
  source : Option String
  error : Option String
  timestamp : Option Time

/-- The combined state seen by a `DataAccessService`: its source manager and
its cache manager. -/
structure HubSt where
  sources : SourceMgr
  coord : CoordSt

/-- `DataAccessService._data_type_mapping` plus the `['yahoo_finance']`
default used at the lookup site. -/
def dataTypeMapping (data_type : String) : List String :=
  if data_type = "stock_prices" then ["yahoo_finance", "fred"]
  else if data_type = "economic_indicators" then ["fred", "worldbank"]
  else if data_type = "corporate_financials" then ["sec_edgar", "yahoo_finance"]
  else if data_type = "bond_data" then ["fred"]
  else if data_type = "commodity_prices" then ["fred"]
  else if data_type = "currency_rates" then ["fred"]
  else ["yahoo_finance"]

/-- `sources[0]` in `get_financial_data` (the mapping never yields an empty
list, so the fallback branch is unreachable). -/
def firstSource (data_type : String) : String :=
  match dataTypeMapping data_type with
  | [] => ""
  | s :: _ => s

/-- Modelled from the spec: `DataSourceManager.get_source` is called by
`DataAccessService._fetch_from_source` but is not defined anywhere in the
repository; the SourceRegistry of §4.5 is a catalog keyed by `sourceId`, so
the lookup returns the registered configuration, or none. -/
def getSource (mgr : SourceMgr) (source_id : String) : Option DataSourceConfig :=
  dictLookup mgr.data_sources source_id

/-- `DataAccessService._fetch_from_source`: fail with
`'数据源 {source_id} 未配置'` when the registry lookup yields nothing, else
return the (externally generated, here parametric) mock data. -/
def fetchFromSource (mock_data : String → Value) (st : HubSt)
    (source_id : String) : SvcResult :=
  match getSource st.sources source_id with
  | Option.none =>
      { success := false, data := Value.none, source := Option.none,
        error := Option.some ("数据源 " ++ source_id ++ " 未配置"),
        timestamp := Option.none }
  | Option.some _ =>
      { success := true, data := mock_data source_id, source := Option.none,
        error := Option.none, timestamp := Option.none }

/-- `DataAccessService._process_financial_data`. -/
def processFinancialData (raw_data : Value) (data_type : String)
    (now : Time) : Value :=
  Value.dict [("processed_data", raw_data),
              ("processing_time", Value.str (toString now)),
              ("data_type", Value.str data_type)]

/-- `DataAccessService._get_appropriate_ttl`. -/
def getAppropriateTtl (data_type : String) : Nat :=
  if data_type = "prices" ∨ data_type = "realtime" then 900
  else if data_type = "fundamentals" ∨ data_type = "company_profile" then 3600
  else if data_type = "historical" then 86400
  else 3600

/-- The cache key built by `get_financial_data`:
`self._generate_cache_key('financial', symbol, data_type, start_date, end_date)`. -/
def finKey (symbol data_type : String) (start_date end_date : Option String) :
    String :=
  dasGenerateCacheKey
    [Option.some "financial", Option.some symbol, Option.some data_type,
     start_date, end_date]

/-- `DataAccessService.get_financial_data`: build the cache key; unless
`force_refresh`, consult the cache and return a `source='cache'` result when
the cached value is truthy; otherwise fetch from the first mapped source
(returning the raw failure dict on fetch failure, without touching the
cache), then process, cache with the domain TTL, and return. -/
def getFinancialData (pickle_loads json_loads : Bytes → Option Value)
    (pickle_dumps json_dumps : Value → Option Bytes)
    (mock_data : String → Value) (st : HubSt) (symbol data_type : String)
    (start_date end_date : Option String) (force_refresh : Bool)
    (now : Time) : SvcResult × HubSt :=
  let cache_key := finKey symbol data_type start_date end_date
  let afterCache : Option (SvcResult × HubSt) × HubSt :=
    if force_refresh then (Option.none, st)
    else
      let (cached_data, c') := coordGet pickle_loads json_loads st.coord cache_key now
      let st := { st with coord := c' }
      if cached_data.truthy then
        (Option.some ({ success := true, data := cached_data,
                        source := Option.some "cache", error := Option.none,
                        timestamp := Option.some now }, st), st)
      else (Option.none, st)
  match afterCache with
  | (Option.some hit, _) => hit
  | (Option.none, st) =>
      let source_id := firstSource data_type
      let raw_data := fetchFromSource mock_data st source_id
      if !raw_data.success then (raw_data, st)
      else
        let processed_data := processFinancialData raw_data.data data_type now
        let ttl := getAppropriateTtl data_type
        let (_, c') := coordSet pickle_dumps json_dumps st.coord cache_key
          processed_data ttl now
        ({ success := true, data := processed_data,
           source := Option.some source_id, error := Option.none,
           timestamp := Option.some now }, { st with coord := c' })

/-!
Exception-aware variants, for the propagation-policy claim.  Here every
low-level collaborator (the SQLite-backed `CacheDatabase` calls, the codecs,
the registry attribute lookup) is a function that may raise, modelled as
`Except String`.  The `...Body` definitions are the `try` bodies: they
thread the state through and surface an uncaught exception as
`Except.error` together with the state at the moment of the raise (Python
mutations made before an exception persist).  The corresponding safe
wrappers apply the `except Exception` handler exactly where the source
has one. -/

/-- A possibly-raising `cache_db.get_cached_data` call. -/
abbrev DbGetF := CacheDb → String → Time → Except String (Option DiskEntry × CacheDb)

/-- A possibly-raising `cache_db.set_cached_data` call. -/
abbrev DbSetF := CacheDb → String → Bytes → Time → Nat → Time → Except String (Bool × CacheDb)

/-- A possibly-raising `cache_db.delete_cached_data` call. -/
abbrev DbDelF := CacheDb → String → Except String (Bool × CacheDb)

/-- `try` body of `CacheManager.get_cached_data` over raising collaborators
(the inner `try` around `pickle.loads` catches only the pickle failure; a
`json.loads` failure escapes to the outer handler). -/
def coordGetXBody (db_get : DbGetF) (pickle_loads json_loads : Bytes → Except String Value)
    (s : CoordSt) (k : String) (now : Time) : Except String Value × CoordSt :=
  let diskPart := fun (s : CoordSt) =>
    match db_get s.db k now with
    | Except.error e => (Except.error e, s)
    | Except.ok (disk_data, db') =>
        let s := { s with db := db' }
        match disk_data with
        | Option.some d =>
            if isExpired now d.expires_at then (Except.ok Value.none, s)
            else
              match pickle_loads d.data with
              | Except.ok data =>
                  (Except.ok data, updateMemoryCache s k data d.expires_at now)
              | Except.error _ =>
                  match json_loads d.data with
                  | Except.ok data =>
                      (Except.ok data, updateMemoryCache s k data d.expires_at now)
                  | Except.error e => (Except.error e, s)
        | Option.none => (Except.ok Value.none, s)
  match dictLookup s.memory k with
  | Option.some cached_item =>
      if isExpired now cached_item.expires_at then
        diskPart { s with memory := dictErase s.memory k }
      else (Except.ok cached_item.data, s)
  | Option.none => diskPart s

/-- `CacheManager.get_cached_data` with its outer `except Exception` handler:
any escaped exception is converted to a `None` result. -/
def coordGetX (db_get : DbGetF) (pickle_loads json_loads : Bytes → Except String Value)
    (s : CoordSt) (k : String) (now : Time) : Value × CoordSt :=
  match coordGetXBody db_get pickle_loads json_loads s k now with
  | (Except.ok v, s') => (v, s')
  | (Except.error _, s') => (Value.none, s')

/-- `try` body of `CacheManager.set_cached_data` over raising collaborators
(the inner `try` catches only the `pickle.dumps` failure; a `json.dumps`
failure escapes — after the memory cache was already updated). -/
def coordSetXBody (db_set : DbSetF) (pickle_dumps json_dumps : Value → Except String Bytes)
    (s : CoordSt) (k : String) (v : Value) (ttl : Nat) (now : Time) :
    Except String Bool × CoordSt :=
  let expires_at := now + ttl
  let s := updateMemoryCache s k v expires_at now
  let write := fun (b : Bytes) =>
    match db_set s.db k b expires_at b.length now with
    | Except.error e => (Except.error e, s)
    | Except.ok (ok, db') => (Except.ok ok, { s with db := db' })
  match pickle_dumps v with
  | Except.ok b => write b
  | Except.error _ =>
      match json_dumps v with
      | Except.ok b => write b
      | Except.error e => (Except.error e, s)

/-- `CacheManager.set_cached_data` with its outer handler: any escaped
exception becomes a `False` result. -/
def coordSetX (db_set : DbSetF) (pickle_dumps json_dumps : Value → Except String Bytes)
    (s : CoordSt) (k : String) (v : Value) (ttl : Nat) (now : Time) :
    Bool × CoordSt :=
  match coordSetXBody db_set pickle_dumps json_dumps s k v ttl now with
  | (Except.ok b, s') => (b, s')
  | (Except.error _, s') => (false, s')

/-- `try` body of `CacheManager.invalidate_cache` over a raising delete. -/
def coordInvalidateXBody (db_del : DbDelF) (s : CoordSt) (k : String) :
    Except String Bool × CoordSt :=
  let s :=
    if (dictLookup s.memory k).isSome then
      { s with memory := dictErase s.memory k }
    else s
  match db_del s.db k with
  | Except.error e => (Except.error e, s)
  | Except.ok (ok, db') => (Except.ok ok, { s with db := db' })

/-- `CacheManager.invalidate_cache` with its outer handler: any escaped
exception becomes a `False` result. -/
def coordInvalidateX (db_del : DbDelF) (s : CoordSt) (k : String) :
    Bool × CoordSt :=
  match coordInvalidateXBody db_del s k with
  | (Except.ok b, s') => (b, s')
  | (Except.error _, s') => (false, s')

/-- `DataAccessService._fetch_from_source` over a raising registry lookup
(in the source the lookup raises `AttributeError`, since
`DataSourceManager.get_source` is not defined) and a raising mock generator:
its own `except Exception` converts any raise into
`{'success': False, 'error': str(e)}`. -/
def fetchFromSourceX (get_sourceF : SourceMgr → String → Except String (Option DataSourceConfig))
    (mock_dataF : String → Except String Value) (st : HubSt)
    (source_id : String) : SvcResult :=
  match get_sourceF st.sources source_id with
  | Except.error e =>
      { success := false, data := Value.none, source := Option.none,
        error := Option.some e, timestamp := Option.none }
  | Except.ok Option.none =>
      { success := false, data := Value.none, source := Option.none,
        error := Option.some ("数据源 " ++ source_id ++ " 未配置"),
        timestamp := Option.none }
  | Except.ok (Option.some _) =>
      match mock_dataF source_id with
      | Except.error e =>
          { success := false, data := Value.none, source := Option.none,
            error := Option.some e, timestamp := Option.none }
      | Except.ok v =>
          { success := true, data := v, source := Option.none,
            error := Option.none, timestamp := Option.none }

/-! Association-list (Python dict) lemmas. -/

theorem dictLookup_dictSet_self (m : List (String × α)) (k : String) (v : α) :
    dictLookup (dictSet m k v) k = Option.some v := by
  induction m with
  | nil => simp [dictSet, dictLookup]
  | cons p rest ih =>
      obtain ⟨k', v'⟩ := p
      by_cases h : k' = k
      · simp [dictSet, h, dictLookup]
      · simp [dictSet, h, dictLookup, ih]

theorem dictLookup_dictSet_ne (m : List (String × α)) (k k' : String) (v : α)
    (h : k' ≠ k) : dictLookup (dictSet m k v) k' = dictLookup m k' := by
  induction m with
  | nil => simp [dictSet, dictLookup, Ne.symm h]
  | cons p rest ih =>
      obtain ⟨k₀, v₀⟩ := p
      by_cases h₀ : k₀ = k
      · subst h₀
        simp [dictSet, dictLookup, Ne.symm h]
      · by_cases h₁ : k₀ = k'
        · simp [dictSet, h₀, dictLookup, h₁, h]
        · simp [dictSet, h₀, dictLookup, h₁, ih]

theorem dictLookup_dictErase_self (m : List (String × α)) (k : String) :
    dictLookup (dictErase m k) k = Option.none := by
  induction m with
  | nil => rfl
  | cons p rest ih =>
      obtain ⟨k', v'⟩ := p
      by_cases h : k' = k
      · simpa [dictErase, List.filter_cons, h] using ih
      · simpa [dictErase, List.filter_cons, h, dictLookup] using ih

theorem dictLookup_dictErase_ne (m : List (String × α)) (k k' : String)
    (h : k' ≠ k) : dictLookup (dictErase m k) k' = dictLookup m k' := by
  induction m with
  | nil => rfl
  | cons p rest ih =>
      obtain ⟨k₀, v₀⟩ := p
      by_cases h₀ : k₀ = k
      · subst h₀
        simpa [dictErase, List.filter_cons, dictLookup, Ne.symm h] using ih
      · by_cases h₁ : k₀ = k'
        · simp [dictErase, List.filter_cons, h₀, dictLookup, h₁, h]
        · simpa [dictErase, List.filter_cons, h₀, dictLookup, h₁] using ih

theorem dictLookup_none_forall (m : List (String × α)) (k : String)
    (h : dictLookup m k = Option.none) : ∀ p ∈ m, p.1 ≠ k := by
  induction m with
  | nil => intro p hp; cases hp
  | cons q rest ih =>
      obtain ⟨k', v'⟩ := q
      by_cases h₀ : k' = k
      · simp [dictLookup, h₀] at h
      · simp only [dictLookup, if_neg h₀] at h
        intro p hp
        cases hp with
        | head => exact h₀
        | tail _ hp => exact ih h p hp

theorem dictErase_of_lookup_none (m : List (String × α)) (k : String)
    (h : dictLookup m k = Option.none) : dictErase m k = m := by
  have hall := dictLookup_none_forall m k h
  unfold dictErase
  rw [List.filter_eq_self]
  intro a ha
  simpa using hall a ha

theorem dictSet_of_lookup_none (m : List (String × α)) (k : String) (v : α)
    (h : dictLookup m k = Option.none) : dictSet m k v = m ++ [(k, v)] := by
  induction m with
  | nil => rfl
  | cons p rest ih =>
      obtain ⟨k', v'⟩ := p
      by_cases h₀ : k' = k
      · simp [dictLookup, h₀] at h
      · simp only [dictLookup, if_neg h₀] at h
        simp [dictSet, h₀, ih h]

theorem dictLookup_append_left (m₁ m₂ : List (String × α)) (k : String) (v : α)
    (h : dictLookup m₁ k = Option.some v) :
    dictLookup (m₁ ++ m₂) k = Option.some v := by
  induction m₁ with
  | nil => simp [dictLookup] at h
  | cons p rest ih =>
      obtain ⟨k', v'⟩ := p
      by_cases h₀ : k' = k
      · simp only [dictLookup, if_pos h₀] at h
        simp [dictLookup, h₀, h]
      · simp only [dictLookup, if_neg h₀] at h
        simp [dictLookup, h₀, ih h]

theorem dictLookup_append_right (m₁ m₂ : List (String × α)) (k : String)
    (h : dictLookup m₁ k = Option.none) :
    dictLookup (m₁ ++ m₂) k = dictLookup m₂ k := by
  induction m₁ with
  | nil => simp
  | cons p rest ih =>
      obtain ⟨k', v'⟩ := p
      by_cases h₀ : k' = k
      · simp [dictLookup, h₀] at h
      · simp only [dictLookup, if_neg h₀] at h
        simp [dictLookup, h₀, ih h]

/-- C3, counterexample: a key present only in the volatile (memory) tier.
`invalidate` removes it from the memory cache (a removal did happen in one
tier) yet returns `False`, because only the durable-tier delete result is
returned. -/
theorem c3_counterexample :
    (dictLookup (CoordSt.mk
        [("k", ⟨Value.str "x", 100, 0⟩)] 1000 (CacheDb.mk [] [])).memory
        "k").isSome = true
    ∧ (coordInvalidate (CoordSt.mk
        [("k", ⟨Value.str "x", 100, 0⟩)] 1000 (CacheDb.mk [] [])) "k").2.memory = []
    ∧ (coordInvalidate (CoordSt.mk
        [("k", ⟨Value.str "x", 100, 0⟩)] 1000 (CacheDb.mk [] [])) "k").1 = false := by
  refine ⟨rfl, ?_, rfl⟩
  simp [coordInvalidate, dictLookup, dictErase, CacheDb.delete_cached_data,
    List.filter]

/-- C3 (amended): `invalidate(k)` removes `k` from both tiers, but its
return value reports only the durable tier: it returns `true` iff the
durable tier contained a row for `k`; a removal that happened only in the
volatile tier yields `false`. -/
theorem c3_invalidate_reports_durable_tier (s : CoordSt) (k : String) :
    ((coordInvalidate s k).1 = true ↔ (dictLookup s.db.entries k).isSome = true)
    ∧ dictLookup (coordInvalidate s k).2.memory k = Option.none
    ∧ dictLookup (coordInvalidate s k).2.db.entries k = Option.none := by
  unfold coordInvalidate CacheDb.delete_cached_data CacheDb.logAccess
  by_cases h : (dictLookup s.memory k).isSome
  · simp [h, dictLookup_dictErase_self]
  · simp [h, dictLookup_dictErase_self,
      Option.not_isSome_iff_eq_none.mp h]

/-- C5, counterexample: a registered source left in its initial
`status = "unknown"` but with `enabled = True` is returned by
`get_active_sources`, contradicting the claim that only `status = 'active'`
entries are listed and that `'unknown'` entries never appear. -/
theorem c5_counterexample :
    (DataSourceConfig.mk "fred" "FRED" DataSourceType.economic_indicator
        DataSourceCategory.government "https://api.stlouisfed.org/fred"
        Option.none "daily" true Option.none "unknown" 0) ∈
      get_active_sources (SourceMgr.mk
        [("fred", DataSourceConfig.mk "fred" "FRED"
          DataSourceType.economic_indicator DataSourceCategory.government
          "https://api.stlouisfed.org/fred" Option.none "daily" true
          Option.none "unknown" 0)])
    ∧ (DataSourceConfig.mk "fred" "FRED" DataSourceType.economic_indicator
        DataSourceCategory.government "https://api.stlouisfed.org/fred"
        Option.none "daily" true Option.none "unknown" 0).status = "unknown" := by
  exact ⟨by simp [get_active_sources], rfl⟩

/-- C5 (amended): `listActive` (`get_active_sources`) returns exactly the
registered configurations whose `enabled` flag is true; the `status` field
is not consulted, so enabled entries with status `'unknown'`, `'inactive'`
or `'error'` are included as well. -/
theorem c5_active_sources_filter_enabled (mgr : SourceMgr) (c : DataSourceConfig) :
    c ∈ get_active_sources mgr ↔
      c ∈ mgr.data_sources.map Prod.snd ∧ c.enabled = true := by
  simp [get_active_sources, List.mem_filter]

/-- Strict canonical order on keyword items (used only in proofs). -/
def kwLt (a b : String × Value) : Prop := a.1 < b.1

instance : IsAntisymm (String × Value) kwLt :=
  ⟨fun _ _ h h' => absurd h (lt_asymm h')⟩

theorem insertionSort_eq_of_perm (kw1 kw2 : List (String × Value))
    (hperm : kw1.Perm kw2) (hnd : (kw1.map Prod.fst).Nodup) :
    kw1.insertionSort kwLe = kw2.insertionSort kwLe := by
  have hp : (kw1.insertionSort kwLe).Perm (kw2.insertionSort kwLe) :=
    ((List.perm_insertionSort kwLe kw1).trans hperm).trans
      (List.perm_insertionSort kwLe kw2).symm
  have strict : ∀ l : List (String × Value), l.Sorted kwLe →
      (l.map Prod.fst).Nodup → l.Sorted kwLt := by
    intro l hs hn
    have hne : l.Pairwise (fun a b : String × Value => a.1 ≠ b.1) :=
      List.pairwise_map.mp hn
    exact (hs.and hne).imp (fun h => lt_of_le_of_ne h.1 h.2)
  have hnd1 : ((kw1.insertionSort kwLe).map Prod.fst).Nodup :=
    (((List.perm_insertionSort kwLe kw1).map Prod.fst).nodup_iff).mpr hnd
  have hnd2 : ((kw2.insertionSort kwLe).map Prod.fst).Nodup :=
    (((List.perm_insertionSort kwLe kw2).map Prod.fst).nodup_iff).mpr
      ((hperm.map Prod.fst).nodup_iff.mp hnd)
  exact List.eq_of_perm_of_sorted hp
    (strict _ (List.sorted_insertionSort kwLe kw1) hnd1)
    (strict _ (List.sorted_insertionSort kwLe kw2) hnd2)

/-- C6: the coordinator cache-key builder is order-independent over keyword
parameters: keyword dicts that are equal as unordered key/value pair sets
(same bindings, distinct keys, any order) hash to the same key, for every
digest function and every rendering of the sorted items. -/
theorem c6_cache_key_kwargs_order_independent
    (md5_hexdigest : String → String) (str_of_args : List Value → String)
    (str_of_items : List (String × Value) → String) (args : List Value)
    (kw1 kw2 : List (String × Value)) (hperm : kw1.Perm kw2)
    (hnd : (kw1.map Prod.fst).Nodup) :
    cmGenerateCacheKey md5_hexdigest str_of_args str_of_items args kw1 =
      cmGenerateCacheKey md5_hexdigest str_of_args str_of_items args kw2 := by
  unfold cmGenerateCacheKey
  rw [insertionSort_eq_of_perm kw1 kw2 hperm hnd]

/-- C6, witness: `buildKey("ns", {a:1, b:2}) = buildKey("ns", {b:2, a:1})`
at concrete inputs. -/
theorem c6_witness :
    cmGenerateCacheKey id (fun l => toString l.length)
      (fun l => String.join (l.map Prod.fst)) [Value.str "ns"]
      [("a", Value.int 1), ("b", Value.int 2)] =
    cmGenerateCacheKey id (fun l => toString l.length)
      (fun l => String.join (l.map Prod.fst)) [Value.str "ns"]
      [("b", Value.int 2), ("a", Value.int 1)] :=
  c6_cache_key_kwargs_order_independent id (fun l => toString l.length)
    (fun l => String.join (l.map Prod.fst)) [Value.str "ns"]
    [("a", Value.int 1), ("b", Value.int 2)]
    [("b", Value.int 2), ("a", Value.int 1)]
    (List.Perm.swap ("b", Value.int 2) ("a", Value.int 1) [])
    (by simp)

/-- `'|'.join` at the character level (used only in proofs about
`dasGenerateCacheKey`). -/
def joinPipeL : List (List Char) → List Char
  | [] => []
  | [x] => x
  | x :: xs => x ++ '|' :: joinPipeL xs

theorem joinPipe_data : ∀ l : List String,
    (joinPipe l).data = joinPipeL (l.map String.data)
  | [] => rfl
  | [x] => rfl
  | x :: y :: ys => by
      show (x ++ "|" ++ joinPipe (y :: ys)).data = _
      rw [String.data_append, String.data_append, joinPipe_data (y :: ys)]
      show x.data ++ ['|'] ++ _ = _
      simp [joinPipeL, List.append_assoc]

theorem pipe_prefix_eq : ∀ x y a b : List Char, '|' ∉ x → '|' ∉ y →
    x ++ '|' :: a = y ++ '|' :: b → x = y ∧ a = b := by
  intro x
  induction x with
  | nil =>
      intro y a b _ hy h
      cases y with
      | nil => simpa using h
      | cons d ys =>
          exfalso
          simp only [List.nil_append, List.cons_append, List.cons.injEq] at h
          exact hy (h.1 ▸ List.mem_cons_self d ys)
  | cons c xs ih =>
      intro y a b hx hy h
      cases y with
      | nil =>
          exfalso
          simp only [List.nil_append, List.cons_append, List.cons.injEq] at h
          exact hx (h.1 ▸ List.mem_cons_self c xs)
      | cons d ys =>
          simp only [List.cons_append, List.cons.injEq] at h
          obtain ⟨hcd, hrest⟩ := h
          have hx' : '|' ∉ xs := fun hm => hx (List.mem_cons_of_mem c hm)
          have hy' : '|' ∉ ys := fun hm => hy (List.mem_cons_of_mem d hm)
          obtain ⟨h1, h2⟩ := ih ys a b hx' hy' hrest
          exact ⟨by rw [hcd, h1], h2⟩

theorem joinPipeL_inj : ∀ (xs : List (List Char)) (ys : List (List Char))
    (x y : List Char), (∀ s ∈ x :: xs, '|' ∉ s) → (∀ s ∈ y :: ys, '|' ∉ s) →
    joinPipeL (x :: xs) = joinPipeL (y :: ys) → x :: xs = y :: ys := by
  intro xs
  induction xs with
  | nil =>
      intro ys x y hx hy h
      cases ys with
      | nil => simpa [joinPipeL] using h
      | cons y' ys' =>
          exfalso
          have hmem : '|' ∈ joinPipeL [x] := by
            rw [h]
            show '|' ∈ y ++ '|' :: joinPipeL (y' :: ys')
            exact List.mem_append_right y (List.mem_cons_self _ _)
          exact hx x (List.mem_cons_self _ _) hmem
  | cons x' xs' ih =>
      intro ys x y hx hy h
      cases ys with
      | nil =>
          exfalso
          have hmem : '|' ∈ joinPipeL [y] := by
            rw [← h]
            show '|' ∈ x ++ '|' :: joinPipeL (x' :: xs')
            exact List.mem_append_right x (List.mem_cons_self _ _)
          exact hy y (List.mem_cons_self _ _) hmem
      | cons y' ys' =>
          have h' : x ++ '|' :: joinPipeL (x' :: xs') =
              y ++ '|' :: joinPipeL (y' :: ys') := h
          obtain ⟨hxy, ht⟩ := pipe_prefix_eq x y _ _
            (hx x (List.mem_cons_self _ _)) (hy y (List.mem_cons_self _ _)) h'
          have hx' : ∀ s ∈ x' :: xs', '|' ∉ s :=
            fun s hs => hx s (List.mem_cons_of_mem x hs)
          have hy' : ∀ s ∈ y' :: ys', '|' ∉ s :=
            fun s hs => hy s (List.mem_cons_of_mem y hs)
          have htail := ih ys' x' y' hx' hy' ht
          rw [hxy, htail]

/-- C7, counterexample: the orchestrator key builder drops `None` arguments
before joining, so two distinct argument tuples that differ only in which
position holds `None` produce the same cache key, contradicting the claimed
no-collision property. -/
theorem c7_counterexample :
    dasGenerateCacheKey
        [Option.some "financial", Option.some "AAPL", Option.some "prices",
         Option.none, Option.some "2024-01-01"] =
      dasGenerateCacheKey
        [Option.some "financial", Option.some "AAPL", Option.some "prices",
         Option.some "2024-01-01", Option.none]
    ∧ ([Option.some "financial", Option.some "AAPL", Option.some "prices",
         Option.none, Option.some "2024-01-01"] ≠
       [Option.some "financial", Option.some "AAPL", Option.some "prices",
         Option.some "2024-01-01", Option.none]) :=
  ⟨rfl, by decide⟩

/-- C7 (amended): the orchestrator cache-key builder joins the non-`None`
arguments with `'|'`, so the key depends only on the sequence of non-`None`
arguments: tuples that differ only in where `None` sits collide, and two
argument tuples produce the same key exactly when their sequences of
non-`None` components agree (assuming the components contain no `'|'` and at
least one non-`None` component is present, as in every call site). -/
theorem c7_das_cache_key_collision_freedom (a b : List (Option String))
    (ha : ∀ s ∈ a.filterMap id, '|' ∉ s.data)
    (hb : ∀ s ∈ b.filterMap id, '|' ∉ s.data)
    (hea : a.filterMap id ≠ []) (heb : b.filterMap id ≠ []) :
    dasGenerateCacheKey a = dasGenerateCacheKey b ↔
      a.filterMap id = b.filterMap id := by
  constructor
  · intro hk
    have hdata : joinPipeL ((a.filterMap id).map String.data) =
        joinPipeL ((b.filterMap id).map String.data) := by
      have := congrArg String.data hk
      rwa [dasGenerateCacheKey, dasGenerateCacheKey, joinPipe_data,
        joinPipe_data] at this
    obtain ⟨x, xs, hxa⟩ := List.exists_cons_of_ne_nil hea
    obtain ⟨y, ys, hyb⟩ := List.exists_cons_of_ne_nil heb
    rw [hxa] at hdata ha ⊢
    rw [hyb] at hdata hb ⊢
    have hmap := joinPipeL_inj (xs.map String.data) (ys.map String.data)
      x.data y.data
      (by
        intro s hs
        simp only [← List.map_cons, List.mem_map] at hs
        obtain ⟨t, ht, rfl⟩ := hs
        exact ha t ht)
      (by
        intro s hs
        simp only [← List.map_cons, List.mem_map] at hs
        obtain ⟨t, ht, rfl⟩ := hs
        exact hb t ht)
      (by simpa using hdata)
    have : (x :: xs).map String.data = (y :: ys).map String.data := by
      simpa using hmap
    exact List.map_injective_iff.mpr (fun s t h => String.ext h) this
  · intro h
    unfold dasGenerateCacheKey
    rw [h]

/-- C7, witness: two argument tuples with different non-`None` components
produce different keys. -/
theorem c7_witness :
    dasGenerateCacheKey [Option.some "financial", Option.some "AAPL"] ≠
      dasGenerateCacheKey [Option.some "financial", Option.some "MSFT"] := by
  intro hk
  have h := (c7_das_cache_key_collision_freedom
    [Option.some "financial", Option.some "AAPL"]
    [Option.some "financial", Option.some "MSFT"]
    (by decide) (by decide) (by decide) (by decide)).mp hk
  simp at h

/-! Coordinator helper lemmas. -/

theorem updateMemoryCache_db (s : CoordSt) (k : String) (v : Value)
    (e t : Time) : (updateMemoryCache s k v e t).db = s.db := rfl

theorem updateMemoryCache_capacity (s : CoordSt) (k : String) (v : Value)
    (e t : Time) : (updateMemoryCache s k v e t).capacity = s.capacity := rfl

theorem updateMemoryCache_lookup_self (s : CoordSt) (k : String) (v : Value)
    (e t : Time) :
    dictLookup (updateMemoryCache s k v e t).memory k =
      Option.some ⟨v, e, t⟩ := by
  unfold updateMemoryCache
  apply dictLookup_dictSet_self

theorem coordSet_both_fail (pd jd : Value → Option Bytes) (s : CoordSt)
    (k : String) (v : Value) (ttl : Nat) (now : Time)
    (hp : pd v = Option.none) (hj : jd v = Option.none) :
    coordSet pd jd s k v ttl now =
      (false, updateMemoryCache s k v (now + ttl) now) := by
  simp [coordSet, hp, hj]

theorem coordGet_memory_hit (pl jl : Bytes → Option Value) (s : CoordSt)
    (k : String) (now : Time) (item : MemEntry)
    (hm : dictLookup s.memory k = Option.some item)
    (hexp : isExpired now item.expires_at = false) :
    coordGet pl jl s k now = (item.data, s) := by
  simp [coordGet, hm, hexp]

theorem isExpired_add_false (now : Time) (ttl : Nat) :
    isExpired now (now + ttl) = false := by
  simp [isExpired]

/-- C2, counterexample: when both codecs fail, `set` returns failure, but
the volatile tier was already updated before serialization was attempted:
starting from an empty cache (old state: miss), the failed `set(k, v)` is
followed by a `get(k)` that observes `v`, not the old miss. -/
theorem c2_counterexample :
    (coordSet (fun _ => Option.none) (fun _ => Option.none)
        (CoordSt.mk [] 1000 (CacheDb.mk [] [])) "k" (Value.str "x") 10 0).1 = false
    ∧ (coordGet (fun _ => Option.none) (fun _ => Option.none)
        (coordSet (fun _ => Option.none) (fun _ => Option.none)
          (CoordSt.mk [] 1000 (CacheDb.mk [] [])) "k" (Value.str "x") 10 0).2
        "k" 0).1 = Value.str "x" :=
  ⟨rfl, rfl⟩

/-- C2 (amended): when both the primary and the fallback codec fail on `v`,
`set(k, v, ttl)` fails and the durable tier is untouched, but the volatile
(memory) tier has already been updated with `v`: the failed key now maps to
`v` in the memory cache, and a subsequent `get(k)` (at the same clock)
observes `v` rather than the prior state. -/
theorem c2_set_serialization_failure (pd jd : Value → Option Bytes)
    (pl jl : Bytes → Option Value) (s : CoordSt) (k : String) (v : Value)
    (ttl : Nat) (now : Time) (hp : pd v = Option.none)
    (hj : jd v = Option.none) :
    (coordSet pd jd s k v ttl now).1 = false
    ∧ (coordSet pd jd s k v ttl now).2.db = s.db
    ∧ dictLookup (coordSet pd jd s k v ttl now).2.memory k =
        Option.some ⟨v, now + ttl, now⟩
    ∧ (coordGet pl jl (coordSet pd jd s k v ttl now).2 k now).1 = v := by
  rw [coordSet_both_fail pd jd s k v ttl now hp hj]
  refine ⟨rfl, rfl, updateMemoryCache_lookup_self s k v (now + ttl) now, ?_⟩
  rw [coordGet_memory_hit pl jl _ k now ⟨v, now + ttl, now⟩
    (updateMemoryCache_lookup_self s k v (now + ttl) now)
    (isExpired_add_false now ttl)]

/-- C2, witness for the amended theorem at concrete inputs. -/
theorem c2_witness :
    (coordSet (fun _ => Option.none) (fun _ => Option.none)
        (CoordSt.mk [] 7 (CacheDb.mk [] [])) "price" (Value.int 3) 5 2).1 = false
    ∧ (coordSet (fun _ => Option.none) (fun _ => Option.none)
        (CoordSt.mk [] 7 (CacheDb.mk [] [])) "price" (Value.int 3) 5 2).2.db =
        (CoordSt.mk [] 7 (CacheDb.mk [] [])).db
    ∧ dictLookup (coordSet (fun _ => Option.none) (fun _ => Option.none)
        (CoordSt.mk [] 7 (CacheDb.mk [] [])) "price" (Value.int 3) 5 2).2.memory
        "price" = Option.some ⟨Value.int 3, 2 + 5, 2⟩
    ∧ (coordGet (fun _ => Option.none) (fun _ => Option.none)
        (coordSet (fun _ => Option.none) (fun _ => Option.none)
          (CoordSt.mk [] 7 (CacheDb.mk [] [])) "price" (Value.int 3) 5 2).2
        "price" 2).1 = Value.int 3 :=
  c2_set_serialization_failure (fun _ => Option.none) (fun _ => Option.none)
    (fun _ => Option.none) (fun _ => Option.none)
    (CoordSt.mk [] 7 (CacheDb.mk [] [])) "price" (Value.int 3) 5 2 rfl rfl

theorem coordSet_memory_lookup_self (pd jd : Value → Option Bytes)
    (s : CoordSt) (k : String) (v : Value) (ttl : Nat) (now : Time) :
    dictLookup (coordSet pd jd s k v ttl now).2.memory k =
      Option.some ⟨v, now + ttl, now⟩ := by
  unfold coordSet
  rcases hpd : pd v with _ | b
  · rcases hjd : jd v with _ | b
    · exact updateMemoryCache_lookup_self s k v (now + ttl) now
    · exact updateMemoryCache_lookup_self s k v (now + ttl) now
  · exact updateMemoryCache_lookup_self s k v (now + ttl) now

theorem coordSet_db_entries_lookup (pd jd : Value → Option Bytes)
    (s : CoordSt) (k : String) (v : Value) (ttl : Nat) (now : Time)
    (b : Bytes) (hp : pd v = Option.some b) :
    dictLookup (coordSet pd jd s k v ttl now).2.db.entries k =
      Option.some ⟨b, now + ttl, now, now, 0, b.length, Option.none, "general"⟩ := by
  simp only [coordSet, hp, CacheDb.set_cached_data, CacheDb.logAccess]
  exact dictLookup_dictSet_self _ _ _

theorem coordSet_db_log (pd jd : Value → Option Bytes) (s : CoordSt)
    (k : String) (v : Value) (ttl : Nat) (now : Time) (b : Bytes)
    (hp : pd v = Option.some b) :
    (coordSet pd jd s k v ttl now).2.db.accessLog =
      s.db.accessLog ++ [(k, AccessType.set)] := by
  simp only [coordSet, hp, CacheDb.set_cached_data, CacheDb.logAccess]
  rw [updateMemoryCache_db]

theorem coordGet_memory_expired (pl jl : Bytes → Option Value) (s : CoordSt)
    (k : String) (now : Time) (item : MemEntry)
    (hm : dictLookup s.memory k = Option.some item)
    (hexp : isExpired now item.expires_at = true) :
    coordGet pl jl s k now =
      coordGetDisk pl jl { s with memory := dictErase s.memory k } k now := by
  simp [coordGet, hm, hexp]

theorem coordGetDisk_expired_row (pl jl : Bytes → Option Value) (s : CoordSt)
    (k : String) (now : Time) (e : DiskEntry)
    (he : dictLookup s.db.entries k = Option.some e)
    (hexp : isExpired now e.expires_at = true) :
    (coordGetDisk pl jl s k now).1 = Value.none
    ∧ (coordGetDisk pl jl s k now).2.db.accessLog =
        s.db.accessLog ++ [(k, AccessType.hit)] := by
  simp [coordGetDisk, CacheDb.get_cached_data, he, hexp, CacheDb.logAccess]

/-- C1, counterexample: `set("k", 1, ttl=1)` at time 0, clock advanced to 2,
then `get("k")`.  The get returns a miss (`None`) — but the durable access
log for the whole run is `[set, hit]`: the lookup appended a `hit` entry
(the expired row is still present in the durable tier), and no `miss` entry
was recorded for it. -/
theorem c1_counterexample :
    (coordGet (fun _ => Option.none) (fun _ => Option.none)
        (coordSet (fun _ => Option.some "B") (fun _ => Option.none)
          (CoordSt.mk [] 1000 (CacheDb.mk [] [])) "k" (Value.int 1) 1 0).2
        "k" 2).1 = Value.none
    ∧ (coordGet (fun _ => Option.none) (fun _ => Option.none)
        (coordSet (fun _ => Option.some "B") (fun _ => Option.none)
          (CoordSt.mk [] 1000 (CacheDb.mk [] [])) "k" (Value.int 1) 1 0).2
        "k" 2).2.db.accessLog =
        [("k", AccessType.set), ("k", AccessType.hit)] :=
  ⟨rfl, rfl⟩

/-- C1 (amended): for every key `k` set with some ttl (the primary codec
succeeding), a coordinator `get(k)` after the ttl has elapsed returns a
miss (`None`), but the lookup appends a `hit` entry to the durable access
log — the expired row is still present in the durable tier, and a `miss`
log entry is recorded only when the key is absent from it. -/
theorem c1_ttl_expiry_returns_none_logs_hit (pd jd : Value → Option Bytes)
    (pl jl : Bytes → Option Value) (s : CoordSt) (k : String) (v : Value)
    (ttl : Nat) (now t₂ : Time) (b : Bytes) (hp : pd v = Option.some b)
    (ht : now + ttl < t₂) :
    (coordGet pl jl (coordSet pd jd s k v ttl now).2 k t₂).1 = Value.none
    ∧ (coordGet pl jl (coordSet pd jd s k v ttl now).2 k t₂).2.db.accessLog =
        s.db.accessLog ++ [(k, AccessType.set), (k, AccessType.hit)] := by
  have hexp : isExpired t₂ (now + ttl) = true := by
    simp [isExpired, ht]
  rw [coordGet_memory_expired pl jl _ k t₂ ⟨v, now + ttl, now⟩
    (coordSet_memory_lookup_self pd jd s k v ttl now) hexp]
  have hrow := coordGetDisk_expired_row pl jl
    { (coordSet pd jd s k v ttl now).2 with
      memory := dictErase (coordSet pd jd s k v ttl now).2.memory k } k t₂
    ⟨b, now + ttl, now, now, 0, b.length, Option.none, "general"⟩
    (coordSet_db_entries_lookup pd jd s k v ttl now b hp) hexp
  refine ⟨hrow.1, ?_⟩
  rw [hrow.2]
  show (coordSet pd jd s k v ttl now).2.db.accessLog ++ _ = _
  rw [coordSet_db_log pd jd s k v ttl now b hp, List.append_assoc]
  rfl

/-- C1, witness for the amended theorem at concrete inputs (`ttl = 1`,
clock advanced by 2). -/
theorem c1_witness :
    (coordGet (fun _ => Option.none) (fun _ => Option.none)
        (coordSet (fun _ => Option.some "B") (fun _ => Option.none)
          (CoordSt.mk [] 1000 (CacheDb.mk [] [])) "price" (Value.int 7) 1 0).2
        "price" 2).1 = Value.none
    ∧ (coordGet (fun _ => Option.none) (fun _ => Option.none)
        (coordSet (fun _ => Option.some "B") (fun _ => Option.none)
          (CoordSt.mk [] 1000 (CacheDb.mk [] [])) "price" (Value.int 7) 1 0).2
        "price" 2).2.db.accessLog =
        (CoordSt.mk [] 1000 (CacheDb.mk [] [])).db.accessLog ++
          [("price", AccessType.set), ("price", AccessType.hit)] :=
  c1_ttl_expiry_returns_none_logs_hit (fun _ => Option.some "B")
    (fun _ => Option.none) (fun _ => Option.none) (fun _ => Option.none)
    (CoordSt.mk [] 1000 (CacheDb.mk [] [])) "price" (Value.int 7) 1 0 2 "B"
    rfl (by decide)

/-! FIFO-eviction development. -/

/-- Repeated coordinator sets of the same payload under the same clock. -/
def setMany (pd jd : Value → Option Bytes) (v : Value) (ttl : Nat)
    (now : Time) (s : CoordSt) (ks : List String) : CoordSt :=
  ks.foldl (fun s k => (coordSet pd jd s k v ttl now).2) s

theorem coordSet_memory (pd jd : Value → Option Bytes) (s : CoordSt)
    (k : String) (v : Value) (ttl : Nat) (now : Time) :
    (coordSet pd jd s k v ttl now).2.memory =
      (updateMemoryCache s k v (now + ttl) now).memory := by
  unfold coordSet
  rcases hpd : pd v with _ | b
  · rcases hjd : jd v with _ | b
    · rfl
    · rfl
  · rfl

theorem coordSet_capacity (pd jd : Value → Option Bytes) (s : CoordSt)
    (k : String) (v : Value) (ttl : Nat) (now : Time) :
    (coordSet pd jd s k v ttl now).2.capacity = s.capacity := by
  unfold coordSet
  rcases hpd : pd v with _ | b
  · rcases hjd : jd v with _ | b
    · rfl
    · rfl
  · rfl

theorem updateMemoryCache_fresh_under_cap (s : CoordSt) (k : String)
    (v : Value) (e t : Time) (hlen : s.memory.length < s.capacity)
    (hfresh : dictLookup s.memory k = Option.none) :
    (updateMemoryCache s k v e t).memory = s.memory ++ [(k, ⟨v, e, t⟩)] := by
  unfold updateMemoryCache
  rw [if_neg (Nat.not_le.mpr hlen)]
  exact dictSet_of_lookup_none _ _ _ hfresh

theorem map_fst_keys (ks : List String) (e : α) :
    (ks.map (fun k => (k, e))).map Prod.fst = ks := by
  induction ks with
  | nil => rfl
  | cons k ks ih => simp [ih]

theorem dictErase_cons_self (k : String) (e : α) (m : List (String × α))
    (hm : dictLookup m k = Option.none) : dictErase ((k, e) :: m) k = m := by
  simp only [dictErase]
  rw [List.filter_cons]
  simp
  exact fun a b hab => dictLookup_none_forall m k hm (a, b) hab

theorem dictLookup_keys_map (ks : List String) (e : α) (k : String)
    (hk : k ∉ ks) : dictLookup (ks.map (fun k' => (k', e))) k = Option.none := by
  induction ks with
  | nil => rfl
  | cons k' ks ih =>
      simp only [List.map_cons, dictLookup]
      have hne : ¬ k' = k := by
        intro h
        subst h
        exact hk (List.mem_cons_self k' ks)
      rw [if_neg hne, ih (fun h => hk (List.mem_cons_of_mem k' h))]

theorem setMany_memory (pd jd : Value → Option Bytes) (v : Value) (ttl : Nat)
    (now : Time) : ∀ (ks : List String) (s : CoordSt), ks.Nodup →
    (∀ k ∈ ks, dictLookup s.memory k = Option.none) →
    s.memory.length + ks.length ≤ s.capacity →
    (setMany pd jd v ttl now s ks).memory =
        s.memory ++ ks.map (fun k => (k, (⟨v, now + ttl, now⟩ : MemEntry)))
    ∧ (setMany pd jd v ttl now s ks).capacity = s.capacity := by
  intro ks
  induction ks with
  | nil => intro s _ _ _; exact ⟨by simp [setMany], rfl⟩
  | cons k ks ih =>
      intro s hnd hfresh hlen
      have hstep : (coordSet pd jd s k v ttl now).2.memory =
          s.memory ++ [(k, (⟨v, now + ttl, now⟩ : MemEntry))] := by
        rw [coordSet_memory]
        exact updateMemoryCache_fresh_under_cap s k v (now + ttl) now
          (by simp at hlen; omega) (hfresh k (List.mem_cons_self k ks))
      have hcap : (coordSet pd jd s k v ttl now).2.capacity = s.capacity :=
        coordSet_capacity pd jd s k v ttl now
      have htail := ih (coordSet pd jd s k v ttl now).2 hnd.of_cons
        (by
          intro k' hk'
          have hne : k ≠ k' := by
            intro h
            subst h
            exact (List.nodup_cons.mp hnd).1 hk'
          rw [hstep,
            dictLookup_append_right _ _ _ (hfresh k' (List.mem_cons_of_mem k hk'))]
          simp [dictLookup, hne])
        (by rw [hstep, hcap]; simp at hlen ⊢; omega)
      have hout : setMany pd jd v ttl now s (k :: ks) =
          setMany pd jd v ttl now (coordSet pd jd s k v ttl now).2 ks := rfl
      rw [hout]
      refine ⟨?_, htail.2.trans hcap⟩
      rw [htail.1, hstep]
      simp

/-- C4: FIFO eviction.  With volatile capacity `N = mid.length + 1` and
`N + 1` distinct keys `k₀ :: mid ++ [klast]`: after inserting the first `N`
keys, a read of `k₀` (the first-inserted key, hence the most recently read
one) returns its value and leaves the cache state completely unchanged, and
the `(N+1)`-th insert then evicts exactly `k₀`, leaving the keys
`mid ++ [klast]` in insertion order. -/
theorem c4_fifo_eviction_ignores_reads (pd jd : Value → Option Bytes)
    (pl jl : Bytes → Option Value) (db : CacheDb) (v : Value) (ttl : Nat)
    (now : Time) (k₀ klast : String) (mid : List String)
    (hnd : (k₀ :: (mid ++ [klast])).Nodup) :
    (coordGet pl jl
        (setMany pd jd v ttl now (CoordSt.mk [] (mid.length + 1) db) (k₀ :: mid))
        k₀ now).1 = v
    ∧ (coordGet pl jl
        (setMany pd jd v ttl now (CoordSt.mk [] (mid.length + 1) db) (k₀ :: mid))
        k₀ now).2 =
        setMany pd jd v ttl now (CoordSt.mk [] (mid.length + 1) db) (k₀ :: mid)
    ∧ ((coordSet pd jd
        (coordGet pl jl
          (setMany pd jd v ttl now (CoordSt.mk [] (mid.length + 1) db)
            (k₀ :: mid)) k₀ now).2
        klast v ttl now).2.memory.map Prod.fst = mid ++ [klast]) := by
  have hk₀ : k₀ ∉ mid ++ [klast] := (List.nodup_cons.mp hnd).1
  have hk₀mid : k₀ ∉ mid := fun h => hk₀ (List.mem_append_left _ h)
  have hk₀last : klast ≠ k₀ := by
    intro h
    exact hk₀ (List.mem_append_right _ (by simp [h]))
  have hmidnd : mid.Nodup ∧ klast ∉ mid := by
    have := (List.nodup_cons.mp hnd).2
    rw [List.nodup_append] at this
    refine ⟨this.1, fun h => ?_⟩
    exact this.2.2 h (by simp)
  have hfold := setMany_memory pd jd v ttl now (k₀ :: mid)
    (CoordSt.mk [] (mid.length + 1) db)
    (List.nodup_cons.mpr ⟨hk₀mid, hmidnd.1⟩)
    (fun _ _ => rfl) (by simp)
  have hm1 : (setMany pd jd v ttl now
      (CoordSt.mk [] (mid.length + 1) db) (k₀ :: mid)).memory =
      (k₀, (⟨v, now + ttl, now⟩ : MemEntry)) ::
        mid.map (fun k => (k, (⟨v, now + ttl, now⟩ : MemEntry))) := by
    rw [hfold.1]; simp
  have hlook : dictLookup (setMany pd jd v ttl now
      (CoordSt.mk [] (mid.length + 1) db) (k₀ :: mid)).memory k₀ =
      Option.some (⟨v, now + ttl, now⟩ : MemEntry) := by
    rw [hm1, dictLookup, if_pos rfl]
  have hget := coordGet_memory_hit pl jl
    (setMany pd jd v ttl now (CoordSt.mk [] (mid.length + 1) db) (k₀ :: mid))
    k₀ now ⟨v, now + ttl, now⟩ hlook (isExpired_add_false now ttl)
  refine ⟨by rw [hget], by rw [hget], ?_⟩
  rw [hget]
  rw [coordSet_memory]
  unfold updateMemoryCache
  rw [if_pos (by rw [hm1, hfold.2]; simp)]
  rw [hm1]
  show (dictSet (dictErase
    ((k₀, (⟨v, now + ttl, now⟩ : MemEntry)) ::
      mid.map (fun k => (k, (⟨v, now + ttl, now⟩ : MemEntry)))) k₀)
    klast ⟨v, now + ttl, now⟩).map Prod.fst = mid ++ [klast]
  rw [dictErase_cons_self k₀ _ _ (dictLookup_keys_map mid _ k₀ hk₀mid),
    dictSet_of_lookup_none _ _ _ (dictLookup_keys_map mid _ klast hmidnd.2),
    List.map_append, map_fst_keys]
  rfl

/-- C4, witness: capacity 2, keys `a, b`, a read of `a`, then inserting `c`
evicts exactly `a`. -/
theorem c4_witness :
    (coordGet (fun _ => Option.none) (fun _ => Option.none)
        (setMany (fun _ => Option.some "B") (fun _ => Option.none) (Value.int 1)
          5 0 (CoordSt.mk [] (["b"].length + 1) (CacheDb.mk [] [])) ["a", "b"])
        "a" 0).1 = Value.int 1
    ∧ ((coordSet (fun _ => Option.some "B") (fun _ => Option.none)
        (coordGet (fun _ => Option.none) (fun _ => Option.none)
          (setMany (fun _ => Option.some "B") (fun _ => Option.none)
            (Value.int 1) 5 0
            (CoordSt.mk [] (["b"].length + 1) (CacheDb.mk [] [])) ["a", "b"])
          "a" 0).2
        "c" (Value.int 1) 5 0).2.memory.map Prod.fst = ["b"] ++ ["c"]) :=
  ⟨(c4_fifo_eviction_ignores_reads (fun _ => Option.some "B")
      (fun _ => Option.none) (fun _ => Option.none) (fun _ => Option.none)
      (CacheDb.mk [] []) (Value.int 1) 5 0 "a" "c" ["b"] (by decide)).1,
   (c4_fifo_eviction_ignores_reads (fun _ => Option.some "B")
      (fun _ => Option.none) (fun _ => Option.none) (fun _ => Option.none)
      (CacheDb.mk [] []) (Value.int 1) 5 0 "a" "c" ["b"] (by decide)).2.2⟩

theorem coordGet_absent (pl jl : Bytes → Option Value) (s : CoordSt)
    (k : String) (now : Time)
    (hm : dictLookup s.memory k = Option.none)
    (hd : dictLookup s.db.entries k = Option.none) :
    coordGet pl jl s k now =
      (Value.none, { s with db := s.db.logAccess k AccessType.miss }) := by
  simp [coordGet, hm, coordGetDisk, CacheDb.get_cached_data, hd]

/-- C8 (spec-modelled registry lookup): on a cache miss where the key is
absent from both tiers, and with the mapped source unregistered (so the
upstream fetch fails), `get_financial_data` returns `{success: false,
error}`, performs no cache write — the final cache state is exactly the
state after the lookup itself, the entry tables of both tiers are unchanged
(so any pre-existing entry for any key is untouched), and a subsequent
`get` of the key still returns none. -/
theorem c8_failed_fetch_leaves_cache_untouched
    (pl jl : Bytes → Option Value) (pd jd : Value → Option Bytes)
    (mock : String → Value) (st : HubSt) (symbol data_type : String)
    (sd ed : Option String) (now : Time)
    (hm : dictLookup st.coord.memory (finKey symbol data_type sd ed) =
      Option.none)
    (hd : dictLookup st.coord.db.entries (finKey symbol data_type sd ed) =
      Option.none)
    (hs : dictLookup st.sources.data_sources (firstSource data_type) =
      Option.none) :
    (getFinancialData pl jl pd jd mock st symbol data_type sd ed false now).1.success
        = false
    ∧ (getFinancialData pl jl pd jd mock st symbol data_type sd ed false
        now).1.error =
        Option.some ("数据源 " ++ firstSource data_type ++ " 未配置")
    ∧ (getFinancialData pl jl pd jd mock st symbol data_type sd ed false
        now).2.sources = st.sources
    ∧ (getFinancialData pl jl pd jd mock st symbol data_type sd ed false
        now).2.coord =
        (coordGet pl jl st.coord (finKey symbol data_type sd ed) now).2
    ∧ (getFinancialData pl jl pd jd mock st symbol data_type sd ed false
        now).2.coord.memory = st.coord.memory
    ∧ (getFinancialData pl jl pd jd mock st symbol data_type sd ed false
        now).2.coord.db.entries = st.coord.db.entries
    ∧ (coordGet pl jl
        (getFinancialData pl jl pd jd mock st symbol data_type sd ed false
          now).2.coord
        (finKey symbol data_type sd ed) now).1 = Value.none := by
  have hget := coordGet_absent pl jl st.coord (finKey symbol data_type sd ed)
    now hm hd
  have hbody : getFinancialData pl jl pd jd mock st symbol data_type sd ed
      false now =
      (fetchFromSource mock
        { st with coord :=
            { st.coord with
              db := (st.coord.db.logAccess (finKey symbol data_type sd ed) AccessType.miss) } }
        (firstSource data_type),
       { st with coord :=
            { st.coord with
              db := (st.coord.db.logAccess (finKey symbol data_type sd ed) AccessType.miss) } }) := by
    simp only [getFinancialData, Bool.false_eq_true, if_false, hget,
      Value.truthy, fetchFromSource, getSource, hs, Bool.not_false, if_true]
  rw [hbody]
  refine ⟨?_, ?_, rfl, ?_, rfl, rfl, ?_⟩
  · simp [fetchFromSource, getSource, hs]
  · simp [fetchFromSource, getSource, hs]
  · rw [hget]
  · exact congrArg Prod.fst (coordGet_absent pl jl
      ⟨st.coord.memory, st.coord.capacity,
        st.coord.db.logAccess (finKey symbol data_type sd ed) AccessType.miss⟩
      (finKey symbol data_type sd ed) now hm hd)

/-- C8, witness: empty caches and an empty registry; `prices` maps to
`yahoo_finance`, which is not registered, so the fetch fails; the operation
reports failure and the key still misses afterwards. -/
theorem c8_witness :
    (getFinancialData (fun _ => Option.none) (fun _ => Option.none)
        (fun _ => Option.none) (fun _ => Option.none) (fun _ => Value.int 1)
        (HubSt.mk (SourceMgr.mk []) (CoordSt.mk [] 1000 (CacheDb.mk [] [])))
        "AAPL" "prices" Option.none Option.none false 0).1.success = false
    ∧ (getFinancialData (fun _ => Option.none) (fun _ => Option.none)
        (fun _ => Option.none) (fun _ => Option.none) (fun _ => Value.int 1)
        (HubSt.mk (SourceMgr.mk []) (CoordSt.mk [] 1000 (CacheDb.mk [] [])))
        "AAPL" "prices" Option.none Option.none false 0).2.coord.db.entries =
        (CoordSt.mk [] 1000 (CacheDb.mk [] [])).db.entries
    ∧ (coordGet (fun _ => Option.none) (fun _ => Option.none)
        (getFinancialData (fun _ => Option.none) (fun _ => Option.none)
          (fun _ => Option.none) (fun _ => Option.none) (fun _ => Value.int 1)
          (HubSt.mk (SourceMgr.mk []) (CoordSt.mk [] 1000 (CacheDb.mk [] [])))
          "AAPL" "prices" Option.none Option.none false 0).2.coord
        (finKey "AAPL" "prices" Option.none Option.none) 0).1 = Value.none :=
  ⟨(c8_failed_fetch_leaves_cache_untouched (fun _ => Option.none)
      (fun _ => Option.none) (fun _ => Option.none) (fun _ => Option.none)
      (fun _ => Value.int 1)
      (HubSt.mk (SourceMgr.mk []) (CoordSt.mk [] 1000 (CacheDb.mk [] [])))
      "AAPL" "prices" Option.none Option.none 0 rfl rfl rfl).1,
   (c8_failed_fetch_leaves_cache_untouched (fun _ => Option.none)
      (fun _ => Option.none) (fun _ => Option.none) (fun _ => Option.none)
      (fun _ => Value.int 1)
      (HubSt.mk (SourceMgr.mk []) (CoordSt.mk [] 1000 (CacheDb.mk [] [])))
      "AAPL" "prices" Option.none Option.none 0 rfl rfl rfl).2.2.2.2.2.1,
   (c8_failed_fetch_leaves_cache_untouched (fun _ => Option.none)
      (fun _ => Option.none) (fun _ => Option.none) (fun _ => Option.none)
      (fun _ => Value.int 1)
      (HubSt.mk (SourceMgr.mk []) (CoordSt.mk [] 1000 (CacheDb.mk [] [])))
      "AAPL" "prices" Option.none Option.none 0 rfl rfl rfl).2.2.2.2.2.2⟩

/-- C9: internal failures are converted, never propagated.  Whenever the
`try` body of a coordinator `get`/`set`/`invalidate` raises (for any
behaviour of the low-level store and codec collaborators), the public
operation returns `None` / `False` / `False` respectively with the state
the body reached; and a raising registry lookup inside the orchestrator's
fetch helper is converted to a `{success: false, error}` result. -/
theorem c9_failures_converted_at_boundary :
    (∀ (db_get : DbGetF) (pl jl : Bytes → Except String Value) (s : CoordSt)
        (k : String) (now : Time) (e : String) (s' : CoordSt),
        coordGetXBody db_get pl jl s k now = (Except.error e, s') →
        coordGetX db_get pl jl s k now = (Value.none, s'))
    ∧ (∀ (db_set : DbSetF) (pd jd : Value → Except String Bytes) (s : CoordSt)
        (k : String) (v : Value) (ttl : Nat) (now : Time) (e : String)
        (s' : CoordSt),
        coordSetXBody db_set pd jd s k v ttl now = (Except.error e, s') →
        coordSetX db_set pd jd s k v ttl now = (false, s'))
    ∧ (∀ (db_del : DbDelF) (s : CoordSt) (k : String) (e : String)
        (s' : CoordSt),
        coordInvalidateXBody db_del s k = (Except.error e, s') →
        coordInvalidateX db_del s k = (false, s'))
    ∧ (∀ (get_sourceF : SourceMgr → String → Except String (Option DataSourceConfig))
        (mock_dataF : String → Except String Value) (st : HubSt)
        (source_id : String) (e : String),
        get_sourceF st.sources source_id = Except.error e →
        (fetchFromSourceX get_sourceF mock_dataF st source_id).success = false
        ∧ (fetchFromSourceX get_sourceF mock_dataF st source_id).error =
            Option.some e) := by
  refine ⟨?_, ?_, ?_, ?_⟩
  · intro db_get pl jl s k now e s' h
    simp [coordGetX, h]
  · intro db_set pd jd s k v ttl now e s' h
    simp [coordSetX, h]
  · intro db_del s k e s' h
    simp [coordInvalidateX, h]
  · intro get_sourceF mock_dataF st source_id e h
    simp [fetchFromSourceX, h]

/-- C9, witness: a store whose calls all raise and codecs that all raise;
each boundary operation converts the failure. -/
theorem c9_witness :
    coordGetX (fun _ _ _ => Except.error "db down")
        (fun _ => Except.error "bad pickle") (fun _ => Except.error "bad json")
        (CoordSt.mk [] 1000 (CacheDb.mk [] [])) "k" 0 =
      (Value.none, CoordSt.mk [] 1000 (CacheDb.mk [] []))
    ∧ coordSetX (fun _ _ _ _ _ _ => Except.error "db down")
        (fun _ => Except.error "bad pickle") (fun _ => Except.error "bad json")
        (CoordSt.mk [] 1000 (CacheDb.mk [] [])) "k" (Value.int 1) 5 0 =
      (false, updateMemoryCache (CoordSt.mk [] 1000 (CacheDb.mk [] [])) "k"
        (Value.int 1) (0 + 5) 0)
    ∧ coordInvalidateX (fun _ _ => Except.error "db down")
        (CoordSt.mk [] 1000 (CacheDb.mk [] [])) "k" =
      (false, CoordSt.mk [] 1000 (CacheDb.mk [] []))
    ∧ (fetchFromSourceX (fun _ _ => Except.error "attribute missing")
        (fun _ => Except.error "mock down")
        (HubSt.mk (SourceMgr.mk []) (CoordSt.mk [] 1000 (CacheDb.mk [] [])))
        "yahoo_finance").success = false :=
  ⟨c9_failures_converted_at_boundary.1 (fun _ _ _ => Except.error "db down")
      (fun _ => Except.error "bad pickle") (fun _ => Except.error "bad json")
      (CoordSt.mk [] 1000 (CacheDb.mk [] [])) "k" 0 "db down"
      (CoordSt.mk [] 1000 (CacheDb.mk [] [])) rfl,
   c9_failures_converted_at_boundary.2.1 (fun _ _ _ _ _ _ => Except.error "db down")
      (fun _ => Except.error "bad pickle") (fun _ => Except.error "bad json")
      (CoordSt.mk [] 1000 (CacheDb.mk [] [])) "k" (Value.int 1) 5 0 "bad json"
      (updateMemoryCache (CoordSt.mk [] 1000 (CacheDb.mk [] [])) "k"
        (Value.int 1) (0 + 5) 0) rfl,
   c9_failures_converted_at_boundary.2.2.1 (fun _ _ => Except.error "db down")
      (CoordSt.mk [] 1000 (CacheDb.mk [] [])) "k" "db down"
      (CoordSt.mk [] 1000 (CacheDb.mk [] [])) rfl,
   (c9_failures_converted_at_boundary.2.2.2
      (fun _ _ => Except.error "attribute missing")
      (fun _ => Except.error "mock down")
      (HubSt.mk (SourceMgr.mk []) (CoordSt.mk [] 1000 (CacheDb.mk [] [])))
      "yahoo_finance" "attribute missing" rfl).1⟩

theorem firstSource_ne_cache (data_type : String) :
    firstSource data_type ≠ "cache" := by
  unfold firstSource dataTypeMapping
  split_ifs <;> decide

/-- C10, counterexample: an unexpired cached payload that is falsy but not
`None` (the empty dict).  The claim says `batchGet` omits such a key; in
fact `batch_get_cached_data` keeps every key whose result `is not None`, so
the key appears in the result map. -/
theorem c10_counterexample :
    Value.truthy (Value.dict []) = false
    ∧ (batchGetCachedData (fun _ => Option.none) (fun _ => Option.none)
        (CoordSt.mk [("k", ⟨Value.dict [], 10, 0⟩)] 1000 (CacheDb.mk [] []))
        ["k"] 0).1 = [("k", Value.dict [])] :=
  ⟨rfl, rfl⟩

/-- C10 (amended): at the public read interface, a falsy cached payload is
treated as a miss by the orchestrator's fetch — `get_financial_data` never
serves it from the cache (its result source is not `'cache'`) — but
`batchGet` omits a key only when the cached payload is Python `None`: any
non-`None` falsy payload (empty dict/list, `0`, empty string, `False`) is
still included in the batch result map, while a stored `None` payload is
indistinguishable from a miss and is omitted. -/
theorem c10_falsy_values_at_read_interface
    (pl jl : Bytes → Option Value) (pd jd : Value → Option Bytes)
    (mock : String → Value) :
    (∀ (st : HubSt) (symbol data_type : String) (sd ed : Option String)
        (now : Time) (item : MemEntry),
        dictLookup st.coord.memory (finKey symbol data_type sd ed) =
          Option.some item →
        isExpired now item.expires_at = false → item.data.truthy = false →
        (getFinancialData pl jl pd jd mock st symbol data_type sd ed false
          now).1.source ≠ Option.some "cache")
    ∧ (∀ (s : CoordSt) (k : String) (now : Time) (item : MemEntry),
        dictLookup s.memory k = Option.some item →
        isExpired now item.expires_at = false → item.data ≠ Value.none →
        (batchGetCachedData pl jl s [k] now).1 = [(k, item.data)])
    ∧ (∀ (s : CoordSt) (k : String) (now : Time) (item : MemEntry),
        dictLookup s.memory k = Option.some item →
        isExpired now item.expires_at = false → item.data = Value.none →
        (batchGetCachedData pl jl s [k] now).1 = []) := by
  refine ⟨?_, ?_, ?_⟩
  · intro st symbol data_type sd ed now item hm hexp htr
    have hget := coordGet_memory_hit pl jl st.coord
      (finKey symbol data_type sd ed) now item hm hexp
    simp only [getFinancialData, Bool.false_eq_true, if_false, hget, htr]
    rcases hgs : dictLookup st.sources.data_sources (firstSource data_type)
      with _ | cfg
    · simp [fetchFromSource, getSource, hgs]
    · simp [fetchFromSource, getSource, hgs]
      exact fun h => absurd h (firstSource_ne_cache data_type)
  · intro s k now item hm hexp hne
    have hget := coordGet_memory_hit pl jl s k now item hm hexp
    simp only [batchGetCachedData, List.foldl_cons, List.foldl_nil, hget]
    cases hdata : item.data with
    | none => exact absurd hdata hne
    | bool b => rfl
    | int n => rfl
    | str s' => rfl
    | list l => rfl
    | dict l => rfl
  · intro s k now item hm hexp hzero
    have hget := coordGet_memory_hit pl jl s k now item hm hexp
    simp only [batchGetCachedData, List.foldl_cons, List.foldl_nil, hget,
      hzero]

/-- C10, witness: a falsy non-`None` payload is re-fetched by the
orchestrator (not served from cache) yet included by `batchGet`; a `None`
payload is omitted by `batchGet`. -/
theorem c10_witness :
    (getFinancialData (fun _ => Option.none) (fun _ => Option.none)
        (fun _ => Option.none) (fun _ => Option.none) (fun _ => Value.int 1)
        (HubSt.mk (SourceMgr.mk [])
          (CoordSt.mk
            [(finKey "AAPL" "prices" Option.none Option.none,
              ⟨Value.dict [], 10, 0⟩)] 1000 (CacheDb.mk [] [])))
        "AAPL" "prices" Option.none Option.none false 0).1.source ≠
      Option.some "cache"
    ∧ (batchGetCachedData (fun _ => Option.none) (fun _ => Option.none)
        (CoordSt.mk [("k", ⟨Value.str "x", 10, 0⟩)] 1000 (CacheDb.mk [] []))
        ["k"] 0).1 = [("k", Value.str "x")]
    ∧ (batchGetCachedData (fun _ => Option.none) (fun _ => Option.none)
        (CoordSt.mk [("k", ⟨Value.none, 10, 0⟩)] 1000 (CacheDb.mk [] []))
        ["k"] 0).1 = [] :=
  ⟨(c10_falsy_values_at_read_interface (fun _ => Option.none)
      (fun _ => Option.none) (fun _ => Option.none) (fun _ => Option.none)
      (fun _ => Value.int 1)).1
      (HubSt.mk (SourceMgr.mk [])
        (CoordSt.mk
          [(finKey "AAPL" "prices" Option.none Option.none,
            ⟨Value.dict [], 10, 0⟩)] 1000 (CacheDb.mk [] [])))
      "AAPL" "prices" Option.none Option.none 0 ⟨Value.dict [], 10, 0⟩
      rfl rfl rfl,
   (c10_falsy_values_at_read_interface (fun _ => Option.none)
      (fun _ => Option.none) (fun _ => Option.none) (fun _ => Option.none)
      (fun _ => Value.int 1)).2.1
      (CoordSt.mk [("k", ⟨Value.str "x", 10, 0⟩)] 1000 (CacheDb.mk [] []))
      "k" 0 ⟨Value.str "x", 10, 0⟩ rfl rfl (fun h => Value.noConfusion h),
   (c10_falsy_values_at_read_interface (fun _ => Option.none)
      (fun _ => Option.none) (fun _ => Option.none) (fun _ => Option.none)
      (fun _ => Value.int 1)).2.2
      (CoordSt.mk [("k", ⟨Value.none, 10, 0⟩)] 1000 (CacheDb.mk [] []))
      "k" 0 ⟨Value.none, 10, 0⟩ rfl rfl rfl⟩

end FamilyWealth
